import Mathlib

/-!
Verification of the 2020plus analysis scripts against their specification.

The development shallowly embeds the three source files:
  - src/simulation/python/random_split.py  (class RandomSplit)
  - data_analysis/python/plot_data.py      (heatmap row normalization)
  - utils/python/gene_tsv.py               (gene aggregation and hypermutator filter)

Pure fragments become Lean functions; pandas/numpy randomness is made
explicit through an oracle record, and fallible Python code returns
Except/Option values.
-/

namespace TwentyTwentyPlus

/-! ## RandomSplit: configuration validation (random_split.py) -/

/-- Result of the comparison `iter > 0` appearing in `RandomSplit.set_num_iter`
(random_split.py line 125).  The name `iter` there denotes the Python 2
builtin function, not the `num_iter` argument: CPython 2 orders every
non-numeric object above every number, so the comparison is always true. -/
def py2_iter_gt_zero : Bool := true

/-- Embedding of `RandomSplit.set_num_iter` (random_split.py lines 117-128).
The guard in the source is `if iter > 0:`, which tests the builtin `iter`
rather than the `num_iter` argument, so the ValueError branch is dead code
and every argument is stored. -/
def set_num_iter (num_iter : Int) : Except String Int :=
  if py2_iter_gt_zero then Except.ok num_iter
  else Except.error "Number of iterations should be positive."

/-- Embedding of `RandomSplit.set_sub_sample` (random_split.py lines 102-115):
`if 0 <= sub_sample <= 1: self.sub_sample = sub_sample else: raise ValueError`. -/
def set_sub_sample (sub_sample : ℚ) : Except String ℚ :=
  if 0 ≤ sub_sample ∧ sub_sample ≤ 1 then Except.ok sub_sample
  else Except.error "Subsample should be between zero and one."

/-! ## RandomSplit: the resampling generator -/

/-- Python `int()` applied to a rational: truncation toward zero. -/
def pyInt (x : ℚ) : Int :=
  if 0 ≤ x then ⌊x⌋ else -⌊-x⌋

theorem pyInt_of_nonneg {x : ℚ} (hx : 0 ≤ x) : pyInt x = ⌊x⌋ := by
  simp [pyInt, hx]

abbrev Sample := String
abbrev TumorType := String

/-- The configuration fields of a RandomSplit object that the per-iteration
splitting logic reads (`self.sub_sample`, `self.with_replacement`). -/
structure SplitConfig where
  sub_sample : ℚ
  with_replacement : Bool

/-- Explicit model of the fresh `np.random.RandomState()` built at the start
of each iteration (random_split.py line 42).  Each call the Python object
receives is numbered; `shuffle n l` is the in-place result of the n-th call
when it is `prng.shuffle(l)`, and `choice n l k` the result of the n-th call
when it is `prng.choice(l, k, replace=True)`.  Any behavior of the real
generator corresponds to some oracle; properties of a real run (a shuffle
permutes, a choice draws members) appear as hypotheses. -/
structure RandOracle where
  shuffle : Nat → List Sample → List Sample
  choice : Nat → List Sample → Nat → List Sample

/-- Per-tumor-type body of the loop in `RandomSplit.dataframe_generator`
(random_split.py lines 43-57).  Returns the left partition, the right
partition, the list now stored in the sample index for this type (the
in-place shuffled list in the without-replacement branch, the untouched
list otherwise), and the next oracle call number. -/
def splitType (cfg : SplitConfig) (o : RandOracle) (c : Nat) (samples : List Sample) :
    List Sample × List Sample × List Sample × Nat :=
  if cfg.with_replacement then
    let k := (pyInt ((samples.length : ℚ) * cfg.sub_sample)).toNat
    (o.choice c samples k, o.choice (c + 1) samples k, samples, c + 2)
  else
    let shuffled := o.shuffle c samples
    let split_pos := (pyInt ((samples.length : ℚ) * cfg.sub_sample)).toNat
    (shuffled.take split_pos, shuffled.drop split_pos, shuffled, c + 1)

/-- One iteration of `dataframe_generator`: fold `splitType` over the stored
sample index (`self.sample_names.iteritems()`), concatenating the per-type
partitions (`left_samples += tmp_left`, `right_samples += tmp_right`) and
recording the lists left behind in the index by the in-place shuffles. -/
def iterOnce (cfg : SplitConfig) (o : RandOracle) :
    Nat → List (TumorType × List Sample) →
    List Sample × List Sample × List (TumorType × List Sample) × Nat
  | c, [] => ([], [], [], c)
  | c, (t, samps) :: rest =>
    let r := splitType cfg o c samps
    let rs := iterOnce cfg o r.2.2.2 rest
    (r.1 ++ rs.1, r.2.1 ++ rs.2.1, (t, r.2.2.1) :: rs.2.2.1, rs.2.2.2)

/-- Embedding of `RandomSplit.dataframe_generator` (random_split.py lines
27-64), fully consumed.  `procFeat` abstracts `self._process_features`
(the feature-matrix, feature-processing and entropy providers are external
pure collaborators per the specification); `oracles i` is the fresh random
state of iteration `i`.  Returns the yielded pairs together with the sample
index as left after the in-place shuffles. -/
def dataframe_generator {α : Type} (procFeat : List Sample → α) (cfg : SplitConfig)
    (oracles : Nat → RandOracle) :
    Nat → List (TumorType × List Sample) →
    List (α × α) × List (TumorType × List Sample)
  | 0, names => ([], names)
  | Nat.succ n, names =>
    let prev := dataframe_generator procFeat cfg oracles n names
    let it := iterOnce cfg (oracles n) 0 prev.2
    (prev.1 ++ [(procFeat it.1, procFeat it.2.1)], it.2.2.1)

/-- C1: the spec requires `set_num_iter` to reject non-positive iteration
counts, but the source tests the builtin `iter` instead of `num_iter`, so
0 and -3 are accepted and stored. -/
theorem set_num_iter_accepts_nonpositive :
    set_num_iter 0 = Except.ok 0 ∧ set_num_iter (-3) = Except.ok (-3) :=
  ⟨rfl, rfl⟩

/-- C6: `set_sub_sample` stores every sub_sample inside [0, 1] unchanged and
raises ValueError for every value outside that range. -/
theorem set_sub_sample_valid_range (q : ℚ) :
    (0 ≤ q ∧ q ≤ 1 → set_sub_sample q = Except.ok q) ∧
    (¬(0 ≤ q ∧ q ≤ 1) →
      set_sub_sample q = Except.error "Subsample should be between zero and one.") := by
  constructor
  · intro h
    simp [set_sub_sample, h]
  · intro h
    simp [set_sub_sample, h]

/-- Witness for C6 at sub_sample = 1/2 (accepted, stored unclamped) and
sub_sample = 3/2 (rejected). -/
theorem set_sub_sample_valid_range_witness :
    ((0 : ℚ) ≤ 1/2 ∧ (1/2 : ℚ) ≤ 1) ∧
    set_sub_sample (1/2) = Except.ok (1/2) ∧
    ¬((0 : ℚ) ≤ 3/2 ∧ (3/2 : ℚ) ≤ 1) ∧
    set_sub_sample (3/2) = Except.error "Subsample should be between zero and one." := by
  refine ⟨by norm_num, (set_sub_sample_valid_range (1/2)).1 (by norm_num),
    by norm_num, (set_sub_sample_valid_range (3/2)).2 (by norm_num)⟩

/-- C8: fully consuming the generator yields exactly `num_iter` pairs, for
every configuration, oracle family, sample index and feature processor. -/
theorem dataframe_generator_yields_num_iter {α : Type} (procFeat : List Sample → α)
    (cfg : SplitConfig) (oracles : Nat → RandOracle)
    (num_iter : Nat) (names : List (TumorType × List Sample)) :
    (dataframe_generator procFeat cfg oracles num_iter names).1.length = num_iter := by
  induction num_iter with
  | zero => rfl
  | succ n ih =>
    simp [dataframe_generator, ih]

/-! ## Per-type partition properties (claims C5 and C7) -/

/-- C5: in a without-replacement iteration, a tumor type with a duplicate-free
list of n sample ids is split so that the left partition is the first
floor(n * sub_sample) ids of the shuffled list, the right partition is the
remainder, the two are disjoint and their sizes sum to n. -/
theorem splitType_without_replacement (q : ℚ) (o : RandOracle) (c : Nat) (l : List Sample)
    (hnd : l.Nodup) (hsh : (o.shuffle c l).Perm l) (h0 : 0 ≤ q) (h1 : q ≤ 1) :
    (splitType ⟨q, false⟩ o c l).1 = (o.shuffle c l).take (⌊(l.length : ℚ) * q⌋).toNat ∧
    (splitType ⟨q, false⟩ o c l).2.1 = (o.shuffle c l).drop (⌊(l.length : ℚ) * q⌋).toNat ∧
    List.Disjoint (splitType ⟨q, false⟩ o c l).1 (splitType ⟨q, false⟩ o c l).2.1 ∧
    (splitType ⟨q, false⟩ o c l).1.length + (splitType ⟨q, false⟩ o c l).2.1.length
      = l.length := by
  have hx : (0 : ℚ) ≤ (l.length : ℚ) * q := mul_nonneg (by positivity) h0
  have hpy : pyInt ((l.length : ℚ) * q) = ⌊(l.length : ℚ) * q⌋ := pyInt_of_nonneg hx
  have hnd2 : (o.shuffle c l).Nodup := hsh.symm.nodup hnd
  refine ⟨by simp [splitType, hpy], by simp [splitType, hpy], ?_, ?_⟩
  · simp only [splitType, if_neg (by simp : ¬(false = true))]
    exact List.disjoint_take_drop hnd2 le_rfl
  · simp only [splitType, if_neg (by simp : ¬(false = true))]
    rw [← List.length_append, List.take_append_drop]
    exact hsh.length_eq

/-- Oracle whose shuffle reverses; used to instantiate theorems at a
concrete run of the pseudorandom generator. -/
def revOracle : RandOracle :=
  ⟨fun _ xs => xs.reverse, fun _ xs n => List.replicate n (xs.headD "")⟩

/-- Witness for C5 at the sample index entry [s1, s2, s3, s4] with
sub_sample = 1/2 and a run whose shuffle reverses the list. -/
theorem splitType_without_replacement_witness :
    (["s1", "s2", "s3", "s4"] : List Sample).Nodup ∧
    ((splitType ⟨1/2, false⟩ revOracle 0 ["s1", "s2", "s3", "s4"]).1
        = (revOracle.shuffle 0 ["s1", "s2", "s3", "s4"]).take
            (⌊((["s1", "s2", "s3", "s4"] : List Sample).length : ℚ) * (1/2)⌋).toNat ∧
      (splitType ⟨1/2, false⟩ revOracle 0 ["s1", "s2", "s3", "s4"]).2.1
        = (revOracle.shuffle 0 ["s1", "s2", "s3", "s4"]).drop
            (⌊((["s1", "s2", "s3", "s4"] : List Sample).length : ℚ) * (1/2)⌋).toNat ∧
      List.Disjoint (splitType ⟨1/2, false⟩ revOracle 0 ["s1", "s2", "s3", "s4"]).1
        (splitType ⟨1/2, false⟩ revOracle 0 ["s1", "s2", "s3", "s4"]).2.1 ∧
      (splitType ⟨1/2, false⟩ revOracle 0 ["s1", "s2", "s3", "s4"]).1.length +
        (splitType ⟨1/2, false⟩ revOracle 0 ["s1", "s2", "s3", "s4"]).2.1.length
          = (["s1", "s2", "s3", "s4"] : List Sample).length) :=
  ⟨by decide,
   splitType_without_replacement (1/2) revOracle 0 ["s1", "s2", "s3", "s4"]
     (by decide) (List.reverse_perm _) (by norm_num) (by norm_num)⟩

/-- Properties a real run of `prng.choice(l, n, replace=True)` satisfies:
when the list is nonempty (numpy raises on an empty list unless n = 0) the
draw has exactly n entries, all members of the list. -/
def choiceOk (o : RandOracle) : Prop :=
  ∀ i (l : List Sample) (n : Nat), (l ≠ [] ∨ n = 0) →
    (o.choice i l n).length = n ∧ ∀ x ∈ o.choice i l n, x ∈ l

theorem choiceOk_revOracle : choiceOk revOracle := by
  intro i l n h
  constructor
  · simp [revOracle]
  · intro x hx
    have hxa := List.eq_of_mem_replicate hx
    rcases h with h | h
    · subst hxa
      cases l with
      | nil => exact absurd rfl h
      | cons a as => simp [List.headD]
    · subst h
      simp [revOracle] at hx

/-- C7: in a with-replacement iteration, each side of a tumor type with n
sample ids is an independent draw of exactly k = floor(n * sub_sample) ids
with replacement from the list (every drawn id is a member; duplicates and
overlap are not excluded), and the stored list is left untouched. -/
theorem splitType_with_replacement (q : ℚ) (o : RandOracle) (c : Nat) (l : List Sample)
    (hc : choiceOk o) (h0 : 0 ≤ q) (h1 : q ≤ 1) :
    (splitType ⟨q, true⟩ o c l).1 = o.choice c l (⌊(l.length : ℚ) * q⌋).toNat ∧
    (splitType ⟨q, true⟩ o c l).2.1 = o.choice (c + 1) l (⌊(l.length : ℚ) * q⌋).toNat ∧
    (splitType ⟨q, true⟩ o c l).1.length = (⌊(l.length : ℚ) * q⌋).toNat ∧
    (splitType ⟨q, true⟩ o c l).2.1.length = (⌊(l.length : ℚ) * q⌋).toNat ∧
    (∀ x ∈ (splitType ⟨q, true⟩ o c l).1, x ∈ l) ∧
    (∀ x ∈ (splitType ⟨q, true⟩ o c l).2.1, x ∈ l) ∧
    (splitType ⟨q, true⟩ o c l).2.2.1 = l := by
  have hx : (0 : ℚ) ≤ (l.length : ℚ) * q := mul_nonneg (by positivity) h0
  have hpy : pyInt ((l.length : ℚ) * q) = ⌊(l.length : ℚ) * q⌋ := pyInt_of_nonneg hx
  have hside : l ≠ [] ∨ (⌊(l.length : ℚ) * q⌋).toNat = 0 := by
    cases l with
    | nil => right; norm_num
    | cons a as => left; simp
  have hcl := hc c l (⌊(l.length : ℚ) * q⌋).toNat hside
  have hcr := hc (c + 1) l (⌊(l.length : ℚ) * q⌋).toNat hside
  refine ⟨by simp [splitType, hpy], by simp [splitType, hpy], ?_, ?_, ?_, ?_, ?_⟩
  · simpa [splitType, hpy] using hcl.1
  · simpa [splitType, hpy] using hcr.1
  · intro x hx2
    exact hcl.2 x (by simpa [splitType, hpy] using hx2)
  · intro x hx2
    exact hcr.2 x (by simpa [splitType, hpy] using hx2)
  · simp [splitType]

/-- Witness for C7 at [s1, s2, s3, s4] with sub_sample = 1/2 and a run whose
choice calls repeat the head of the list. -/
theorem splitType_with_replacement_witness :
    (splitType ⟨1/2, true⟩ revOracle 0 ["s1", "s2", "s3", "s4"]).1.length
      = (⌊((["s1", "s2", "s3", "s4"] : List Sample).length : ℚ) * (1/2)⌋).toNat ∧
    (splitType ⟨1/2, true⟩ revOracle 0 ["s1", "s2", "s3", "s4"]).2.1.length
      = (⌊((["s1", "s2", "s3", "s4"] : List Sample).length : ℚ) * (1/2)⌋).toNat ∧
    (splitType ⟨1/2, true⟩ revOracle 0 ["s1", "s2", "s3", "s4"]).2.2.1
      = ["s1", "s2", "s3", "s4"] := by
  have h := splitType_with_replacement (1/2) revOracle 0 ["s1", "s2", "s3", "s4"]
    choiceOk_revOracle (by norm_num) (by norm_num)
  exact ⟨h.2.2.1, h.2.2.2.1, h.2.2.2.2.2.2⟩

/-! ## Mutation of the stored sample index (claim C4) -/

/-- Relation between a sample-index entry after a run and the corresponding
entry before it: same tumor type, and the stored sample list is a
permutation (same elements, possibly reordered in place). -/
def samePermEntries (p q : TumorType × List Sample) : Prop :=
  p.1 = q.1 ∧ p.2.Perm q.2

theorem forall2_samePerm_trans {l1 l2 l3 : List (TumorType × List Sample)}
    (h12 : List.Forall₂ samePermEntries l1 l2) (h23 : List.Forall₂ samePermEntries l2 l3) :
    List.Forall₂ samePermEntries l1 l3 := by
  induction h12 generalizing l3 with
  | nil => cases h23; exact .nil
  | cons h t ih =>
    cases h23 with
    | cons h2 t2 => exact .cons ⟨h.1.trans h2.1, h.2.trans h2.2⟩ (ih t2)

theorem iterOnce_names_perm (cfg : SplitConfig) (o : RandOracle)
    (hsh : ∀ c l, (o.shuffle c l).Perm l) :
    ∀ (c : Nat) (names : List (TumorType × List Sample)),
      List.Forall₂ samePermEntries (iterOnce cfg o c names).2.2.1 names := by
  intro c names
  induction names generalizing c with
  | nil => exact .nil
  | cons p rest ih =>
    obtain ⟨t, samps⟩ := p
    refine .cons ⟨rfl, ?_⟩ (ih _)
    by_cases hw : cfg.with_replacement
    · simp [splitType, hw]
    · simpa [splitType, hw] using hsh c samps

/-- C4 counterexample: with one tumor type holding [s1, s2], sub_sample 1/2,
without replacement, and a run whose shuffle reverses, consuming a single
iteration leaves the stored sample index reordered — not unchanged. -/
theorem dataframe_generator_mutates_index :
    (dataframe_generator (fun l => l) ⟨1/2, false⟩ (fun _ => revOracle)
        1 [("T", ["s1", "s2"])]).2 ≠ [("T", ["s1", "s2"])] := by
  decide

/-- C4 amended: consuming any number of iterations keeps the tumor types of
the stored sample index in place and keeps each per-type sequence equal as a
multiset (the without-replacement branch shuffles it in place, so the order
may change; the with-replacement branch leaves it untouched). -/
theorem dataframe_generator_names_perm {α : Type} (procFeat : List Sample → α)
    (cfg : SplitConfig) (oracles : Nat → RandOracle)
    (hsh : ∀ i c l, ((oracles i).shuffle c l).Perm l) :
    ∀ (n : Nat) (names : List (TumorType × List Sample)),
      List.Forall₂ samePermEntries (dataframe_generator procFeat cfg oracles n names).2
        names := by
  intro n names
  induction n with
  | zero => exact List.forall₂_same.2 fun x _ => ⟨rfl, List.Perm.refl _⟩
  | succ n ih =>
    exact forall2_samePerm_trans
      (iterOnce_names_perm cfg (oracles n) (hsh n) 0 _) ih

/-- Witness for the amended C4 statement at a concrete index and run. -/
theorem dataframe_generator_names_perm_witness :
    List.Forall₂ samePermEntries
      (dataframe_generator (fun l => l) ⟨1/2, false⟩ (fun _ => revOracle)
        1 [("T", ["s1", "s2"])]).2
      [("T", ["s1", "s2"])] :=
  dataframe_generator_names_perm (fun l => l) ⟨1/2, false⟩ (fun _ => revOracle)
    (fun _ _ l => List.reverse_perm l) 1 [("T", ["s1", "s2"])]

/-! ## Heatmap row normalization (plot_data.py, claim C2) -/

/-- A cell of the pivoted count table; `none` models a missing (NaN) entry. -/
abbrev Cell := Option ℚ

/-- Pandas row sum with the default skipna behavior (`ptable.T.sum()`):
missing entries are skipped, and a row with no present entry sums to NaN. -/
def rowSum (row : List Cell) : Cell :=
  if row.all (fun c => c.isNone) then none
  else some (row.filterMap id).sum

/-- Elementwise float division of a cell by a row sum.  A missing operand
propagates, and a zero divisor yields NaN: the count tables are nonnegative,
so a zero row sum forces every present numerator to be zero, and IEEE 0/0
is NaN. -/
def divCell (c : Cell) (s : Cell) : Cell :=
  match c, s with
  | none, _ => none
  | _, none => none
  | some v, some w => if w = 0 then none else some (v / w)

/-- One row of `(ptable.T / ptable.T.sum()).T`. -/
def normalizeRow (row : List Cell) : List Cell :=
  row.map (fun c => divCell c (rowSum row))

/-- What `DataFrame.fillna(0)` returns for one row. -/
def fillnaRow (row : List Cell) : List Cell :=
  row.map (fun c => some (c.getD 0))

/-- Embedding of the normalization step shared by `aa_missense_heatmap`
(plot_data.py lines 40-42) and `nuc_substitution_heatmap` (lines 83-85):
`ptable_norm = (ptable.T / ptable.T.sum()).T` followed by the statement
`ptable_norm.fillna(0)`, whose freshly allocated result is discarded
(fillna is not in place).  Returns the table handed to `myplt.heatmap`. -/
def heatmapTable (ptable : List (List Cell)) : List (List Cell) :=
  let ptable_norm := ptable.map normalizeRow
  let _discarded := ptable_norm.map fillnaRow
  ptable_norm

/-- C2 evaluated at the failing input: a count table whose single row is
all zeros is handed to the heatmap renderer as a row of NaN entries — the
discarded `fillna(0)` never replaces them with zeros. -/
theorem heatmapTable_keeps_nan :
    heatmapTable [[some 0, some 0]] = [[none, none]] ∧
    heatmapTable [[some 0, some 0]] ≠ [[some 0, some 0]] := by
  have h : heatmapTable [[some 0, some 0]] = [[none, none]] := by
    simp [heatmapTable, normalizeRow, rowSum, divCell]
  refine ⟨h, ?_⟩
  rw [h]
  simp

/-! ## Hypermutator filtering (gene_tsv.py, claim C3) -/

/-- A row of the `nucleotide` relation.  Only COSMICSampleID is inspected by
the hypermutator query; the remaining columns are carried opaquely. -/
structure NucRow where
  cosmicSampleID : String
  rest : List String
deriving DecidableEq

/-- The per-sample total of the subquery in `filter_hypermutators`
(gene_tsv.py lines 113-126): `SUM(mut_indicator)` grouped by COSMICSampleID
counts one per row of the relation. -/
def mutationCount (tbl : List NucRow) (sid : String) : Nat :=
  (tbl.filter (fun r => r.cosmicSampleID == sid)).length

/-- Embedding of `filter_hypermutators` (gene_tsv.py lines 108-136) composed
with the delete-and-reinsert step of `save_db` (lines 139-178): the relation
is re-materialized from the rows selected by
`WHERE COSMICSampleID in (... WHERE y.MutationCounts < hypermutator_count)`,
so exactly the rows of samples with count below the threshold survive. -/
def filter_hypermutators (hypermutator_count : Int) (tbl : List NucRow) : List NucRow :=
  tbl.filter (fun r => (mutationCount tbl r.cosmicSampleID : Int) < hypermutator_count)

/-- C3 counterexample: with threshold 2, sample a (2 mutations, not below
the threshold) loses its rows and sample b (1 mutation, below the
threshold) keeps its row — the code keeps the below-threshold samples and
removes the others, the opposite of the claim. -/
theorem filter_hypermutators_keeps_low_counts :
    mutationCount [⟨"a", []⟩, ⟨"a", []⟩, ⟨"b", []⟩] "b" < 2 ∧
    ¬ mutationCount [⟨"a", []⟩, ⟨"a", []⟩, ⟨"b", []⟩] "a" < 2 ∧
    (⟨"b", []⟩ : NucRow) ∈ filter_hypermutators 2 [⟨"a", []⟩, ⟨"a", []⟩, ⟨"b", []⟩] ∧
    (⟨"a", []⟩ : NucRow) ∉ filter_hypermutators 2 [⟨"a", []⟩, ⟨"a", []⟩, ⟨"b", []⟩] := by
  decide

/-- C3 amended: re-materialization keeps exactly the rows of samples whose
total mutation count is below the threshold, and removes every row of every
sample whose count is at or above it. -/
theorem filter_hypermutators_membership (hypermutator_count : Int)
    (tbl : List NucRow) (r : NucRow) (h : r ∈ tbl) :
    (r ∈ filter_hypermutators hypermutator_count tbl ↔
      (mutationCount tbl r.cosmicSampleID : Int) < hypermutator_count) := by
  simp [filter_hypermutators, List.mem_filter, h]

/-- Witness for the amended C3 statement at the counterexample table. -/
theorem filter_hypermutators_membership_witness :
    (⟨"b", []⟩ : NucRow) ∈ [(⟨"a", []⟩ : NucRow), ⟨"a", []⟩, ⟨"b", []⟩] ∧
    ((⟨"b", []⟩ : NucRow) ∈ filter_hypermutators 2 [⟨"a", []⟩, ⟨"a", []⟩, ⟨"b", []⟩] ↔
      (mutationCount [⟨"a", []⟩, ⟨"a", []⟩, ⟨"b", []⟩] "b" : Int) < 2) :=
  ⟨by decide, filter_hypermutators_membership 2 _ ⟨"b", []⟩ (by decide)⟩

/-! ## Gene aggregation line filter (gene_tsv.py, claim C9) -/

/-- Test whether the second char list starts with the first. -/
def leadsWith : List Char → List Char → Bool
  | [], _ => true
  | _ :: _, [] => false
  | p :: ps, c :: cs => (p == c) && leadsWith ps cs

/-- Test whether the first char list occurs contiguously in the second. -/
def listHasSub (pat : List Char) : List Char → Bool
  | [] => leadsWith pat []
  | c :: cs => leadsWith pat (c :: cs) || listHasSub pat cs

/-- Python `pat in s` on strings: substring occurrence. -/
def hasSubstr (s pat : String) : Bool :=
  listHasSub pat.data s.data

/-- Python `str.lower()`: ASCII lowercasing of every character. -/
def pyLower (s : String) : String :=
  ⟨s.data.map Char.toLower⟩

/-- Field of the 22-column COSMIC named tuple `LineTuple` (gene_tsv.py lines
61-70): AminoAcid is column 2 of the tab-split line (after SampleName and
COSMICSampleID). -/
def lineAminoAcid (l : List String) : String := l.getD 2 ""

/-- Nucleotide is column 3 of the tab-split line. -/
def lineNucleotide (l : List String) : String := l.getD 3 ""

/-- SomaticStatus is column 13 of the tab-split line. -/
def lineSomaticStatus (l : List String) : String := l.getD 13 ""

/-- The nested row filter of `concatenate_genes` (gene_tsv.py lines 79-85):
`if split_tuple.AminoAcid and split_tuple.Nucleotide:` then
`if split_tuple.AminoAcid != "p.?" or split_tuple.Nucleotide != "c.?":` then
`if "unknown" not in split_tuple.SomaticStatus.lower():` write the line.
A Python string is truthy exactly when it is nonempty. -/
def keepLine (l : List String) : Bool :=
  if (lineAminoAcid l != "") && (lineNucleotide l != "") then
    if (lineAminoAcid l != "p.?") || (lineNucleotide l != "c.?") then
      !(hasSubstr (pyLower (lineSomaticStatus l)) "unknown")
    else false
  else false

/-- The raw text of a line modelled by its tab-split fields: str.split and
a tab join are mutually inverse, so this is the original line. -/
def rawLine (fields : List String) : String :=
  String.intercalate "\t" fields

/-- Line handling of `concatenate_genes`: a kept line is written as
`gene_name + "\t" + line` with the gene name `file_name[:-4]` taken from
the per-gene file name (gene_tsv.py lines 73 and 85). -/
def writeGeneLine (fileName : String) (fields : List String) : Option String :=
  if keepLine fields then some (fileName.dropRight 4 ++ "\t" ++ rawLine fields)
  else none

/-- Modelled from the claim wording: both change columns nonempty, the pair
is not (p.?, c.?), and the somatic status does not contain the word
unknown case-insensitively. -/
def specWritesLine (l : List String) : Prop :=
  lineAminoAcid l ≠ "" ∧ lineNucleotide l ≠ "" ∧
  ¬(lineAminoAcid l = "p.?" ∧ lineNucleotide l = "c.?") ∧
  hasSubstr (pyLower (lineSomaticStatus l)) "unknown" = false

instance specWritesLine_decidable (l : List String) : Decidable (specWritesLine l) := by
  unfold specWritesLine
  infer_instance

theorem keepLine_eq_true_iff (l : List String) :
    keepLine l = true ↔ specWritesLine l := by
  unfold keepLine specWritesLine
  split_ifs with h1 h2
  · simp only [Bool.and_eq_true, bne_iff_ne] at h1
    simp only [Bool.or_eq_true, bne_iff_ne] at h2
    simp only [Bool.not_eq_true']
    constructor
    · intro h
      refine ⟨h1.1, h1.2, ?_, h⟩
      rcases h2 with h2 | h2
      · exact fun hc => h2 hc.1
      · exact fun hc => h2 hc.2
    · exact fun h => h.2.2.2
  · simp only [Bool.or_eq_true, bne_iff_ne] at h2
    push_neg at h2
    simp [h2.1, h2.2]
  · simp only [Bool.and_eq_true, bne_iff_ne] at h1
    simp only [false_iff]
    intro h
    exact h1 ⟨h.1, h.2.1⟩

/-- C9: for every 22-field line of a per-gene file, the aggregation step
writes the line to the combined output iff both change columns are
nonempty, the pair is not (p.?, c.?), and the somatic status does not
contain the word unknown case-insensitively; a written line is the raw line
preceded by the gene name taken from the file name. -/
theorem writeGeneLine_iff (fileName : String) (fields : List String)
    (h22 : fields.length = 22) :
    (writeGeneLine fileName fields
        = some (fileName.dropRight 4 ++ "\t" ++ rawLine fields) ↔ specWritesLine fields) ∧
    (writeGeneLine fileName fields = none ↔ ¬ specWritesLine fields) := by
  unfold writeGeneLine
  cases hk : keepLine fields with
  | false =>
    have hns : ¬ specWritesLine fields := by
      rw [← keepLine_eq_true_iff]
      simp [hk]
    simp [hns]
  | true =>
    have hs : specWritesLine fields := (keepLine_eq_true_iff fields).1 hk
    simp [hs]

/-- A well-formed COSMIC line (22 tab-separated fields) describing a kept
somatic missense mutation. -/
def cosmicFields : List String :=
  ["SAMP1", "111", "p.G12D", "c.35G>A", "lung", "NS", "NS", "carcinoma",
   "NS", "NS", "123", "1", "5", "Confirmed somatic variant", "blood", "het",
   "17", "100", "200", "17", "100", "200"]

/-- Witness for C9: the concrete line above is written for file TP53.tsv,
with the gene name stripped from the file name in front. -/
theorem writeGeneLine_iff_witness :
    cosmicFields.length = 22 ∧ specWritesLine cosmicFields ∧
    writeGeneLine "TP53.tsv" cosmicFields
      = some ("TP53.tsv".dropRight 4 ++ "\t" ++ rawLine cosmicFields) := by
  refine ⟨by decide, by decide, ?_⟩
  exact (writeGeneLine_iff "TP53.tsv" cosmicFields (by decide)).1.mpr (by decide)

/-! ## Sample index construction (RandomSplit.set_df, claim C10) -/

/-- The two columns of the loaded mutation table that `set_df` inspects
when building the sample index; the remaining columns (Gene, AminoAcid,
Nucleotide, Variant_Classification) play no part in it. -/
structure MutRow where
  tumorSample : String
  tumorType : String
deriving DecidableEq

def tumorPair (r : MutRow) : String × String :=
  (r.tumorSample, r.tumorType)

/-- Pandas `drop_duplicates`: keep the first occurrence of every value. -/
def dropDups {α : Type} [DecidableEq α] : List α → List α
  | [] => []
  | x :: xs => x :: dropDups (xs.filter (fun y => !(y == x)))
termination_by l => l.length
decreasing_by
  simp only [List.length_cons]
  exact Nat.lt_succ_of_le (List.length_filter_le _ _)

theorem mem_dropDups {α : Type} [DecidableEq α] (a : α) (l : List α) :
    a ∈ dropDups l ↔ a ∈ l := by
  induction l using dropDups.induct with
  | case1 => simp [dropDups]
  | case2 x xs ih =>
    rw [dropDups]
    simp only [List.mem_cons, ih, List.mem_filter, Bool.not_eq_true', beq_eq_false_iff_ne]
    by_cases hax : a = x
    · simp [hax]
    · simp [hax]

theorem nodup_dropDups {α : Type} [DecidableEq α] (l : List α) :
    (dropDups l).Nodup := by
  induction l using dropDups.induct with
  | case1 => simp [dropDups]
  | case2 x xs ih =>
    rw [dropDups]
    refine List.nodup_cons.2 ⟨?_, ih⟩
    intro hx
    rw [mem_dropDups] at hx
    have := (List.mem_filter.1 hx).2
    simp at this

/-- The attributes `RandomSplit.set_df` (random_split.py lines 130-153)
derives from the loaded table.  `num_sample_names = none` models the
attribute never being assigned (the consistency check fails into a bare
`pass`, the `raise` being commented out), so that a later attribute read
raises AttributeError. -/
structure DfState where
  sample_names : List (String × List String)
  num_sample_names : Option Nat
  total_count : Nat

/-- Embedding of `RandomSplit.set_df`: deduplicate the
(Tumor_Sample, Tumor_Type) pairs, group the sample ids by tumor type
(pandas orders the group keys; only the grouping itself matters to the
claims), and assign `num_sample_names` only when no sample occurs with two
tumor types (`np.max(drop_dups[...].value_counts()) > 1` is the violation
test). -/
def set_df (rows : List MutRow) : DfState :=
  let drop_dups := dropDups (rows.map tumorPair)
  let sample_names := (dropDups (drop_dups.map Prod.snd)).map
    (fun t => (t, (drop_dups.filter (fun p => p.2 == t)).map Prod.fst))
  let multi := drop_dups.any (fun p => 1 < (drop_dups.filter (fun q => q.1 == p.1)).length)
  { sample_names := sample_names
    num_sample_names := if multi then none else some sample_names.length
    total_count := rows.length }

theorem two_le_length_of_mem_ne {α : Type} {a b : α} {l : List α}
    (ha : a ∈ l) (hb : b ∈ l) (hab : a ≠ b) : 2 ≤ l.length := by
  cases l with
  | nil => simp at ha
  | cons x xs =>
    cases xs with
    | nil =>
      simp at ha hb
      exact absurd (ha.trans hb.symm) hab
    | cons y ys =>
      simp only [List.length_cons]
      omega

theorem exists_mem_ne_of_one_lt_length {α : Type} {l : List α}
    (h : 1 < l.length) (hnd : l.Nodup) : ∃ a ∈ l, ∃ b ∈ l, a ≠ b := by
  cases l with
  | nil => simp at h
  | cons x xs =>
    cases xs with
    | nil => simp at h
    | cons y ys =>
      refine ⟨x, by simp, y, by simp, fun hxy => ?_⟩
      exact (List.nodup_cons.1 hnd).1 (hxy ▸ List.mem_cons_self y ys)

theorem multi_flag_iff (rows : List MutRow) :
    ((dropDups (rows.map tumorPair)).any
        (fun p => 1 < ((dropDups (rows.map tumorPair)).filter (fun q => q.1 == p.1)).length)
      = true) ↔
    ∃ r1 ∈ rows, ∃ r2 ∈ rows,
      r1.tumorSample = r2.tumorSample ∧ r1.tumorType ≠ r2.tumorType := by
  constructor
  · intro h
    rw [List.any_eq_true] at h
    obtain ⟨p, hp, hlen⟩ := h
    rw [decide_eq_true_eq] at hlen
    have hndf : ((dropDups (rows.map tumorPair)).filter (fun q => q.1 == p.1)).Nodup :=
      (nodup_dropDups _).filter _
    obtain ⟨a, ha, b, hb, hab⟩ := exists_mem_ne_of_one_lt_length hlen hndf
    have ha2 := List.mem_filter.1 ha
    have hb2 := List.mem_filter.1 hb
    have ha1 : a.1 = p.1 := by simpa using ha2.2
    have hb1 : b.1 = p.1 := by simpa using hb2.2
    obtain ⟨r1, hr1, hr1e⟩ := List.mem_map.1 ((mem_dropDups _ _).1 ha2.1)
    obtain ⟨r2, hr2, hr2e⟩ := List.mem_map.1 ((mem_dropDups _ _).1 hb2.1)
    refine ⟨r1, hr1, r2, hr2, ?_, ?_⟩
    · have h1 : a.1 = b.1 := ha1.trans hb1.symm
      rw [← hr1e, ← hr2e] at h1
      exact h1
    · intro hty
      apply hab
      have h1 : a.1 = b.1 := ha1.trans hb1.symm
      have h2 : a.2 = b.2 := by
        rw [← hr1e, ← hr2e]
        exact hty
      exact Prod.ext h1 h2
  · rintro ⟨r1, hr1, r2, hr2, hs, ht⟩
    rw [List.any_eq_true]
    refine ⟨tumorPair r1, (mem_dropDups _ _).2 (List.mem_map_of_mem _ hr1), ?_⟩
    rw [decide_eq_true_eq]
    have hane : tumorPair r1 ≠ tumorPair r2 := fun he => ht (congrArg Prod.snd he)
    have hm1 : tumorPair r1 ∈
        (dropDups (rows.map tumorPair)).filter (fun q => q.1 == (tumorPair r1).1) :=
      List.mem_filter.2 ⟨(mem_dropDups _ _).2 (List.mem_map_of_mem _ hr1), by simp⟩
    have hm2 : tumorPair r2 ∈
        (dropDups (rows.map tumorPair)).filter (fun q => q.1 == (tumorPair r1).1) :=
      List.mem_filter.2 ⟨(mem_dropDups _ _).2 (List.mem_map_of_mem _ hr2),
        by simp [tumorPair, hs]⟩
    have := two_le_length_of_mem_ne hm1 hm2 hane
    omega

theorem set_df_none_iff (rows : List MutRow) :
    (set_df rows).num_sample_names = none ↔
      ∃ r1 ∈ rows, ∃ r2 ∈ rows,
        r1.tumorSample = r2.tumorSample ∧ r1.tumorType ≠ r2.tumorType := by
  rw [← multi_flag_iff]
  simp only [set_df]
  cases hb : (dropDups (rows.map tumorPair)).any
      (fun p => 1 < ((dropDups (rows.map tumorPair)).filter (fun q => q.1 == p.1)).length) with
  | false => simp [hb]
  | true => simp [hb]

/-- C10: when some tumor sample carries two tumor types, `set_df` still
returns (no exception), but `num_sample_names` is never assigned — modelled
as `none`, so a later read fails; when every sample has one tumor type it is
assigned the number of tumor-type groups, that is, the number of distinct
tumor types of the table. -/
theorem set_df_num_sample_names (rows : List MutRow) :
    ((∃ r1 ∈ rows, ∃ r2 ∈ rows,
        r1.tumorSample = r2.tumorSample ∧ r1.tumorType ≠ r2.tumorType) →
      (set_df rows).num_sample_names = none) ∧
    ((∀ r1 ∈ rows, ∀ r2 ∈ rows,
        r1.tumorSample = r2.tumorSample → r1.tumorType = r2.tumorType) →
      (set_df rows).num_sample_names = some (set_df rows).sample_names.length) ∧
    ((set_df rows).sample_names.map Prod.fst).Nodup ∧
    (∀ t, t ∈ (set_df rows).sample_names.map Prod.fst ↔ ∃ r ∈ rows, r.tumorType = t) := by
  refine ⟨fun h => (set_df_none_iff rows).2 h, ?_, ?_, ?_⟩
  · intro h
    have hne : ¬ (set_df rows).num_sample_names = none := by
      rw [set_df_none_iff]
      rintro ⟨r1, hr1, r2, hr2, hs, ht⟩
      exact ht (h r1 hr1 r2 hr2 hs)
    simp only [set_df] at hne ⊢
    cases hb : (dropDups (rows.map tumorPair)).any
        (fun p => 1 < ((dropDups (rows.map tumorPair)).filter (fun q => q.1 == p.1)).length) with
    | false => simp [hb]
    | true =>
      exfalso
      apply hne
      simp [hb]
  · have hcomp : (Prod.fst ∘ fun t : String =>
        (t, ((dropDups (rows.map tumorPair)).filter (fun p => p.2 == t)).map Prod.fst))
        = fun t => t := rfl
    simpa [set_df, List.map_map, hcomp] using
      nodup_dropDups ((dropDups (rows.map tumorPair)).map Prod.snd)
  · intro t
    have hcomp : (Prod.fst ∘ fun t : String =>
        (t, ((dropDups (rows.map tumorPair)).filter (fun p => p.2 == t)).map Prod.fst))
        = fun t => t := rfl
    simp [set_df, List.map_map, hcomp, mem_dropDups, List.mem_map, tumorPair]

/-- Witness for C10: a table in which sample s1 carries both tumor types T1
and T2 leaves the group-count attribute unassigned. -/
theorem set_df_num_sample_names_witness :
    (set_df [⟨"s1", "T1"⟩, ⟨"s1", "T2"⟩]).num_sample_names = none :=
  (set_df_num_sample_names [⟨"s1", "T1"⟩, ⟨"s1", "T2"⟩]).1
    ⟨⟨"s1", "T1"⟩, by decide, ⟨"s1", "T2"⟩, by decide, rfl, by decide⟩

end TwentyTwentyPlus
